import Mathlib

/-!
Shallow embedding of the ezstats system monitor (Rust) for checking its
natural-language specification.

Source files embedded: src/widget.rs, src/ui.rs, src/gpu.rs, src/main.rs.
Machine reals (f32) are modelled as rationals; f32 division by zero, which
produces a non-finite value (NaN or an infinity), is modelled as `none`;
u64 subtraction, which panics on underflow in debug builds, is modelled as
`none`; time instants are modelled as natural-number milliseconds.
-/

namespace EZ

/-! ## Terminal primitives (crossterm, external collaborator)

A widget paints by issuing a sequence of terminal commands: set the
foreground color, print a string, reset the color.  `draw` methods are
embedded as functions returning the command list they would issue. -/

/-- Subset of crossterm foreground colors used by the program. -/
inductive Color where
  | White
  | Red
  | Yellow
  | Green
  | DarkGrey
  | Blue
  | Cyan
deriving DecidableEq, Repr

/-- One terminal command issued through an execute! block. -/
inductive Cmd where
  | setFg (c : Color)
  | print (s : String)
  | reset
deriving DecidableEq, Repr

/-- Interpreter for a command list: the runs of printed text, each paired
with the foreground color in effect when it was printed (`none` is the
terminal's default color, i.e. after a reset). -/
def runCmds : Option Color → List Cmd → List (Option Color × String)
  | _, [] => []
  | _, Cmd.setFg c :: rest => runCmds (some c) rest
  | _, Cmd.reset :: rest => runCmds none rest
  | c, Cmd.print s :: rest => (c, s) :: runCmds c rest

/-- Text that a command list prints, colors erased. -/
def renderedText (cmds : List Cmd) : String :=
  String.join ((runCmds none cmds).map Prod.snd)

/-! ## Machine-arithmetic helpers -/

/-- Rust `f32::clamp`: if self is below min return min, above max return max,
else self (NaN inputs are outside the rational model). -/
def rustClamp (v lo hi : ℚ) : ℚ :=
  if v < lo then lo else if hi < v then hi else v

/-- Rust `f32::round`: round half away from zero. -/
def f32Round (q : ℚ) : ℤ :=
  if 0 ≤ q then ⌊q + 1 / 2⌋ else -⌊-q + 1 / 2⌋

/-- Rust `as usize` cast of a rounded float: negative values saturate to 0. -/
def f32RoundToUsize (q : ℚ) : ℕ :=
  (f32Round q).toNat

/-- Rust f32 division.  Division by zero yields a non-finite f32 value
(NaN or an infinity), modelled as `none`. -/
def f32Div (a b : ℚ) : Option ℚ :=
  if b = 0 then none else some (a / b)

/-- Rust u64 subtraction `a - b`: panics on underflow in debug builds
(wraps in release), modelled as `none` when `b > a`. -/
def u64Sub (a b : ℕ) : Option ℕ :=
  if b ≤ a then some (a - b) else none

/-- Rust format with a left-align width spec: pad on the right with spaces
up to `w` columns; longer strings are not truncated. -/
def formatLeftAlign (s : String) (w : ℕ) : String :=
  s ++ String.mk (List.replicate (w - s.length) ' ')

/-- Rust format with a right-align width spec: pad on the left with spaces
up to `w` columns; longer strings are not truncated. -/
def formatRightAlign (s : String) (w : ℕ) : String :=
  String.mk (List.replicate (w - s.length) ' ') ++ s

/-! ## src/widget.rs -/

/-- BarChart widget (src/widget.rs): title, value as a percentage (0-100),
and width in cells.  Fields are private in the source, so every value of
this type reachable in the program comes from `BarChart.new`. -/
structure BarChart where
  title : String
  value : ℚ
  width : ℕ
deriving DecidableEq, Repr

/-- BarChart::new (src/widget.rs lines 24-33): clamp width into 10..=200 via
`width.max(10).min(200)` and value into 0.0..=100.0 via `value.clamp`. -/
def BarChart.new (title : String) (value : ℚ) (width : ℕ) : BarChart :=
  let safe_width := min (max width 10) 200
  { title := title
    value := rustClamp value 0 100
    width := safe_width }

/-- BarChart::get_color (src/widget.rs lines 36-44): red above 80, yellow
above 50, else green. -/
def BarChart.get_color (b : BarChart) : Color :=
  if 80 < b.value then Color.Red
  else if 50 < b.value then Color.Yellow
  else Color.Green

/-- BarChart::format_value (src/widget.rs lines 47-49): the value printed
with one decimal digit and a percent sign.  The decimal rounding here uses
round half away from zero; an f32 can never be an exact tie at one decimal
place (ties would need a fractional part of five hundredths, which is not
dyadic), so the tie direction is immaterial for values coming from f32. -/
def BarChart.format_value (b : BarChart) : String :=
  let t := f32Round (b.value * 10)
  toString (t / 10) ++ "." ++ toString (t % 10) ++ "%"

/-- Filled cell count of BarChart::draw (src/widget.rs line 55): the value
over 100 times the width, rounded with f32::round and cast `as usize`. -/
def BarChart.filledWidth (b : BarChart) : ℕ :=
  f32RoundToUsize (b.value / 100 * (b.width : ℚ))

/-- Empty cell count of BarChart::draw (src/widget.rs line 56):
`width.saturating_sub(filled_width)`. -/
def BarChart.emptyWidth (b : BarChart) : ℕ :=
  b.width - b.filledWidth

/-- BarChart::draw (src/widget.rs lines 53-105), as the terminal command
sequence issued by its execute! blocks, in source order: white title padded
to 15 columns, the filled segment (if nonempty) in the value color, the
empty segment (if nonempty) in dark grey, then a space and the right-aligned
value text in the value color, then a newline. -/
def BarChart.draw (b : BarChart) : List Cmd :=
  [Cmd.setFg Color.White, Cmd.print (formatLeftAlign b.title 15), Cmd.reset]
  ++ (if 0 < b.filledWidth then
        [Cmd.setFg b.get_color,
         Cmd.print (String.mk (List.replicate b.filledWidth '█')),
         Cmd.reset]
      else [])
  ++ (if 0 < b.emptyWidth then
        [Cmd.setFg Color.DarkGrey,
         Cmd.print (String.mk (List.replicate b.emptyWidth '░')),
         Cmd.reset]
      else [])
  ++ [Cmd.setFg b.get_color,
      Cmd.print (" " ++ formatRightAlign b.format_value 6),
      Cmd.reset,
      Cmd.print "\n"]

/-! ## src/ui.rs: view registry and UI state

The source gates the GpuDetailed variant and its uses behind the cargo
features nvidia-gpu and apple-gpu.  The embedding carries the compile-time
condition as an explicit boolean `gpuFeature`, true when at least one of
the two features is enabled in the build. -/

/-- ViewType (src/ui.rs lines 25-33).  In the source the GpuDetailed variant
exists only in builds with a GPU feature; here the constructor always
exists and `gpuFeature` guards its uses. -/
inductive ViewType where
  | Overview
  | CpuDetailed
  | MemoryDetailed
  | GpuDetailed
  | Help
deriving DecidableEq, Repr

/-- Views (src/ui.rs lines 50-53): current view plus the ordered list of
available views.  Both fields are private in the source, so every
reachable value of this type is produced by `Views.new` and the three
navigation methods. -/
structure Views where
  current : ViewType
  available : List ViewType
deriving DecidableEq, Repr

/-- Views::new (src/ui.rs lines 56-72): Overview, CpuDetailed and
MemoryDetailed always; GpuDetailed exactly when a GPU feature is compiled
in; Help last.  The current view starts at Overview. -/
def Views.new (gpuFeature : Bool) : Views :=
  let available := [ViewType.Overview, ViewType.CpuDetailed, ViewType.MemoryDetailed]
  let available := if gpuFeature then available ++ [ViewType.GpuDetailed] else available
  let available := available ++ [ViewType.Help]
  { current := ViewType.Overview
    available := available }

/-- Views::next (src/ui.rs lines 78-83): find the position of the current
view in the available list; if found, advance to the next position
cyclically, otherwise leave the state unchanged. -/
def Views.next (vs : Views) : Views :=
  match vs.available.indexOf? vs.current with
  | some i => { vs with current := vs.available.getD ((i + 1) % vs.available.length) vs.current }
  | none => vs

/-- Views::prev (src/ui.rs lines 85-94): find the position of the current
view; if found, step back one position, wrapping from 0 to the last index,
otherwise leave the state unchanged. -/
def Views.prev (vs : Views) : Views :=
  match vs.available.indexOf? vs.current with
  | some i =>
      let j := if i = 0 then vs.available.length - 1 else i - 1
      { vs with current := vs.available.getD j vs.current }
  | none => vs

/-- Views::go_to (src/ui.rs lines 96-100): switch to the requested view only
when it is contained in the available list. -/
def Views.go_to (vs : Views) (view_type : ViewType) : Views :=
  if view_type ∈ vs.available then { vs with current := view_type } else vs

/-- UiState (src/ui.rs lines 104-110).  `last_update` is an Instant,
modelled as milliseconds on a monotonic clock. -/
structure UiState where
  views : Views
  running : Bool
  automatic_refresh : Bool
  last_update : ℕ
  show_help_line : Bool
deriving DecidableEq, Repr

/-- UiState::new (src/ui.rs lines 113-121), at clock value `now`. -/
def UiState.new (gpuFeature : Bool) (now : ℕ) : UiState :=
  { views := Views.new gpuFeature
    running := true
    automatic_refresh := true
    last_update := now
    show_help_line := true }

/-- UiState::toggle_automatic_refresh (src/ui.rs lines 123-125). -/
def UiState.toggle_automatic_refresh (st : UiState) : UiState :=
  { st with automatic_refresh := !st.automatic_refresh }

/-- UiState::should_update (src/ui.rs lines 127-129): automatic refresh is
on and the time elapsed since the last update reaches the refresh rate.
`elapsed` is `now - last_update`; a monotonic Instant guarantees
`last_update ≤ now` for all program-reachable clock values. -/
def UiState.should_update (st : UiState) (now refresh_rate : ℕ) : Bool :=
  st.automatic_refresh && decide (refresh_rate ≤ now - st.last_update)

/-- UiState::mark_updated (src/ui.rs lines 131-133): set `last_update` to
the current instant. -/
def UiState.mark_updated (st : UiState) (now : ℕ) : UiState :=
  { st with last_update := now }

/-- Crossterm key codes used by handle_key_event; `other` stands for any
key code the function does not inspect. -/
inductive KeyCode where
  | Char (c : Char)
  | Esc
  | Tab
  | BackTab
  | Enter
  | other
deriving DecidableEq, Repr

/-- Crossterm key event: a code plus the state of the CONTROL modifier,
the only modifier the source inspects. -/
structure KeyEvent where
  code : KeyCode
  ctrl : Bool
deriving DecidableEq, Repr

/-- handle_key_event (src/ui.rs lines 137-168).  Returns the redraw flag
together with the updated state (the source mutates the state in place and
returns only the flag).  Quit keys are checked first: q or Esc with any
modifiers, or c with CONTROL.  The digit 4 arm exists only in builds with
a GPU feature; without one it falls through to the default arm.  The r arm
marks the state updated (at clock value `now`) and returns early. -/
def handle_key_event (gpuFeature : Bool) (now : ℕ) (key_event : KeyEvent)
    (state : UiState) : Bool × UiState :=
  if (key_event.code = KeyCode.Char 'q' ∨ key_event.code = KeyCode.Esc)
      ∨ (key_event.code = KeyCode.Char 'c' ∧ key_event.ctrl = true) then
    (true, { state with running := false })
  else if key_event.code = KeyCode.Tab then
    (true, { state with views := state.views.next })
  else if key_event.code = KeyCode.BackTab then
    (true, { state with views := state.views.prev })
  else if key_event.code = KeyCode.Char '1' then
    (true, { state with views := state.views.go_to ViewType.Overview })
  else if key_event.code = KeyCode.Char '2' then
    (true, { state with views := state.views.go_to ViewType.CpuDetailed })
  else if key_event.code = KeyCode.Char '3' then
    (true, { state with views := state.views.go_to ViewType.MemoryDetailed })
  else if key_event.code = KeyCode.Char '4' ∧ gpuFeature = true then
    (true, { state with views := state.views.go_to ViewType.GpuDetailed })
  else if key_event.code = KeyCode.Char '?' ∨ key_event.code = KeyCode.Char 'h' then
    (true, { state with views := state.views.go_to ViewType.Help })
  else if key_event.code = KeyCode.Char 'p' then
    (true, state.toggle_automatic_refresh)
  else if key_event.code = KeyCode.Char 'r' then
    (true, state.mark_updated now)
  else
    (false, state)

/-- Free Memory row of draw_memory_view (src/ui.rs lines 474-479): the text
printed in the value cell is the u64 subtraction `total_mem - used_mem`
followed by a space and MB, with no underflow guard in the source; `none`
models the debug-build panic on underflow. -/
def draw_memory_view_free_row (total_mem used_mem : ℕ) : Option String :=
  (u64Sub total_mem used_mem).map (fun free => toString free ++ " MB")

/-! ## src/gpu.rs: GPU probe with cache -/

/-- GpuVendor (src/gpu.rs lines 21-27). -/
inductive GpuVendor where
  | Nvidia
  | Apple
  | Other
  | None
deriving DecidableEq, Repr

/-- GpuInfo (src/gpu.rs lines 6-18): memory sizes in MB, utilization and
memory usage as percentages. -/
structure GpuInfo where
  name : String
  utilization : ℚ
  temperature : ℕ
  total_memory : ℕ
  used_memory : ℕ
  memory_usage : ℚ
  vendor : GpuVendor
  is_low_power : Bool
  is_headless : Bool
deriving DecidableEq, Repr

/-- GpuMonitor cache fields (src/gpu.rs lines 30-43).  The backend handles
(nvml, apple_devices) are external resources; what refresh_gpu_info reads
from them at a given instant is supplied to the embedded methods as an
explicit probe result. -/
structure GpuMonitor where
  last_refresh : ℕ
  cache_duration : ℕ
  cached_info : List GpuInfo
deriving DecidableEq, Repr

/-- GpuMonitor::new (src/gpu.rs lines 56-121), at clock value `now`:
`last_refresh` is set ten seconds in the past to force an initial refresh,
`cache_duration` is 500 ms, and the cache is populated with one initial
probe, whose result is `initialProbe`. -/
def GpuMonitor.new (now : ℕ) (initialProbe : List GpuInfo) : GpuMonitor :=
  { last_refresh := now - 10000
    cache_duration := 500
    cached_info := initialProbe }

/-- GpuMonitor::has_gpus (src/gpu.rs lines 124-126). -/
def GpuMonitor.has_gpus (m : GpuMonitor) : Bool :=
  !m.cached_info.isEmpty

/-- GpuMonitor::device_count (src/gpu.rs lines 129-131). -/
def GpuMonitor.device_count (m : GpuMonitor) : ℕ :=
  m.cached_info.length

/-- GpuMonitor::get_gpu_info (src/gpu.rs lines 134-142), called at clock
value `now` when the backends would currently report `probeResult`.
Returns the list handed to the caller, a flag recording whether a backend
probe (refresh_gpu_info) was performed, and the monitor state after the
call.  The method takes an immutable reference in the source, so the
returned state is the input state unchanged: neither `cached_info` nor
`last_refresh` is ever written after construction. -/
def GpuMonitor.get_gpu_info (m : GpuMonitor) (now : ℕ) (probeResult : List GpuInfo) :
    List GpuInfo × Bool × GpuMonitor :=
  if now - m.last_refresh < m.cache_duration ∧ ¬ m.cached_info.isEmpty then
    (m.cached_info, false, m)
  else
    (probeResult, true, m)

/-- Memory statistics of one NVIDIA device inside GpuMonitor::refresh_gpu_info
(src/gpu.rs lines 169-181): total and used bytes are converted to MB by
integer division, and the percentage is used over total times 100 guarded
by a total-positive check. -/
def refresh_gpu_info_memory (memTotalBytes memUsedBytes : ℕ) : ℕ × ℕ × ℚ :=
  let total := memTotalBytes / 1024 / 1024
  let used := memUsedBytes / 1024 / 1024
  let pct := if 0 < total then ((used : ℚ) / (total : ℚ)) * 100 else 0
  (total, used, pct)

/-! ## src/main.rs: host sampler -/

/-- SystemMonitor::get_memory_info (src/main.rs lines 88-94): total and used
bytes from the sysinfo System are converted to MB by integer division, and
the usage percentage is computed as used over total times 100 with no
divide-by-zero guard, so a zero MB total produces a non-finite f32 value
(modelled as `none` through `f32Div`). -/
def SystemMonitor.get_memory_info (totalBytes usedBytes : ℕ) : ℕ × ℕ × Option ℚ :=
  let total_mem := totalBytes / 1024 / 1024
  let used_mem := usedBytes / 1024 / 1024
  let mem_usage_pct := (f32Div (used_mem : ℚ) (total_mem : ℚ)).map (fun r => r * 100)
  (total_mem, used_mem, mem_usage_pct)

/-! ## Event/refresh loop (spec-modelled)

The repository's main.rs display loop does not use UiState, so the
event/refresh loop that the spec describes is not under src. -/

/-- Modelled from the spec: step 2 of one iteration of the event/refresh
loop of spec section 4.5, which is missing from src (main.rs display()
loops unconditionally and never consults UiState): if should_update holds
at the current instant, ask the Host Sampler to refresh, call
mark_updated, and re-render.  The second component counts Host Sampler
refresh calls. -/
def loopSampleStep (refresh_rate : ℕ) (st : UiState) (now : ℕ) (samplerCalls : ℕ) :
    UiState × ℕ :=
  if st.should_update now refresh_rate then
    (st.mark_updated now, samplerCalls + 1)
  else
    (st, samplerCalls)

/-- Modelled from the spec: the sampling steps of successive loop
iterations at the given sequence of clock instants. -/
def loopSampleRun (refresh_rate : ℕ) (st : UiState) (times : List ℕ) (samplerCalls : ℕ) :
    UiState × ℕ :=
  match times with
  | [] => (st, samplerCalls)
  | t :: ts =>
      let next := loopSampleStep refresh_rate st t samplerCalls
      loopSampleRun refresh_rate next.1 ts next.2

/-! ## Helper lemmas -/

lemma rustClamp_mem (v lo hi : ℚ) (h : lo ≤ hi) :
    lo ≤ rustClamp v lo hi ∧ rustClamp v lo hi ≤ hi := by
  unfold rustClamp
  split_ifs with h1 h2
  · exact ⟨le_refl lo, h⟩
  · exact ⟨h, le_refl hi⟩
  · exact ⟨le_of_not_lt h1, le_of_not_lt h2⟩

/-! ## Claim C7 -/

/-- C7: BarChart::new stores a value clamped into the interval from 0 to
100 and a width clamped into the interval from 10 to 200, for every title,
value and width. -/
theorem C7_barchart_new_clamps (t : String) (v : ℚ) (w : ℕ) :
    0 ≤ (BarChart.new t v w).value ∧ (BarChart.new t v w).value ≤ 100 ∧
    10 ≤ (BarChart.new t v w).width ∧ (BarChart.new t v w).width ≤ 200 := by
  have h := rustClamp_mem v 0 100 (by norm_num)
  refine ⟨h.1, h.2, ?_, ?_⟩ <;> simp only [BarChart.new] <;> omega

/-! ## Claim C9 -/

/-- C9: the bar color is red for values strictly above 80, yellow for
values strictly above 50 and at most 80, green otherwise; at the probe
values 0, 50, 50.01, 80, 80.01 and 100 the colors are green, green,
yellow, yellow, red and red. -/
theorem C9_color_thresholds :
    (∀ b : BarChart,
      (80 < b.value → b.get_color = Color.Red) ∧
      (50 < b.value → b.value ≤ 80 → b.get_color = Color.Yellow) ∧
      (b.value ≤ 50 → b.get_color = Color.Green)) ∧
    (∀ (t : String) (w : ℕ),
      (BarChart.new t 0 w).get_color = Color.Green ∧
      (BarChart.new t 50 w).get_color = Color.Green ∧
      (BarChart.new t (5001 / 100) w).get_color = Color.Yellow ∧
      (BarChart.new t 80 w).get_color = Color.Yellow ∧
      (BarChart.new t (8001 / 100) w).get_color = Color.Red ∧
      (BarChart.new t 100 w).get_color = Color.Red) := by
  constructor
  · intro b
    refine ⟨fun h => ?_, fun h1 h2 => ?_, fun h => ?_⟩ <;>
      simp only [BarChart.get_color] <;> split_ifs <;> first | rfl | linarith
  · intro t w
    refine ⟨?_, ?_, ?_, ?_, ?_, ?_⟩ <;>
      · simp only [BarChart.get_color, BarChart.new, rustClamp]
        norm_num

/-- Closed instance of the general part of C9 at concrete charts. -/
theorem C9_witness :
    (⟨"x", 90, 40⟩ : BarChart).get_color = Color.Red ∧
    (⟨"x", 60, 40⟩ : BarChart).get_color = Color.Yellow ∧
    (⟨"x", 10, 40⟩ : BarChart).get_color = Color.Green :=
  ⟨(C9_color_thresholds.1 _).1 (by norm_num),
   (C9_color_thresholds.1 _).2.1 (by norm_num) (by norm_num),
   (C9_color_thresholds.1 _).2.2 (by norm_num)⟩

/-! ## Claim C10 -/

/-- C10: the Free Memory row of draw_memory_view is the unguarded u64
subtraction of used from total: whenever used does not exceed total the
row shows the exact difference, and on an input with used greater than
total the subtraction underflows (the debug-build panic, modelled as
none). -/
theorem C10_free_memory_subtraction :
    (∀ total_mem used_mem : ℕ, used_mem ≤ total_mem →
      draw_memory_view_free_row total_mem used_mem =
        some (toString (total_mem - used_mem) ++ " MB")) ∧
    draw_memory_view_free_row 0 1 = none := by
  constructor
  · intro total used h
    simp [draw_memory_view_free_row, u64Sub, h]
  · rfl

/-- Closed instance of C10 at 100 MB total, 40 MB used, plus the
underflowing input. -/
theorem C10_witness :
    draw_memory_view_free_row 100 40 = some (toString (100 - 40) ++ " MB") ∧
    draw_memory_view_free_row 0 1 = none :=
  ⟨C10_free_memory_subtraction.1 100 40 (by decide), C10_free_memory_subtraction.2⟩

/-! ## Claim C1 -/

/-- Device snapshot used as a concrete probe result in cache theorems. -/
def sampleGpu : GpuInfo :=
  { name := "Test"
    utilization := 42
    temperature := 55
    total_memory := 8192
    used_memory := 4096
    memory_usage := 50
    vendor := GpuVendor.Nvidia
    is_low_power := false
    is_headless := false }

/-- C1 fails in the code: get_gpu_info takes an immutable reference and
never writes the cache, and new sets last_refresh ten seconds in the past,
so the cache is permanently stale.  Every call returns the monitor
unchanged (first conjunct), and two calls 100 ms apart on a freshly
constructed monitor, with a populated cache and well within the 500 ms
cache_duration of each other, both perform a backend probe (second and
third conjuncts), where the claim requires zero probes between them. -/
theorem C1_cache_never_updated :
    (∀ (m : GpuMonitor) (now : ℕ) (r : List GpuInfo),
      (m.get_gpu_info now r).2.2 = m) ∧
    ((GpuMonitor.new 20000 [sampleGpu]).get_gpu_info 20100 [sampleGpu]).2.1 = true ∧
    ((GpuMonitor.new 20000 [sampleGpu]).get_gpu_info 20200 [sampleGpu]).2.1 = true := by
  refine ⟨fun m now r => ?_, ?_, ?_⟩
  · simp only [GpuMonitor.get_gpu_info]
    split <;> rfl
  · simp [GpuMonitor.get_gpu_info, GpuMonitor.new]
  · simp [GpuMonitor.get_gpu_info, GpuMonitor.new]

/-! ## Claim C2 -/

/-- C2: the per-device GPU memory computation in refresh_gpu_info guards
the zero-total case and otherwise computes the exact percentage, but
SystemMonitor::get_memory_info divides with no zero guard: with zero total
bytes the host percentage is a non-finite f32 value (modelled as none),
not the zero the claim requires. -/
theorem C2_memory_math :
    (∀ memTotalBytes memUsedBytes : ℕ,
      ((refresh_gpu_info_memory memTotalBytes memUsedBytes).1 = 0 →
        (refresh_gpu_info_memory memTotalBytes memUsedBytes).2.2 = 0) ∧
      ((refresh_gpu_info_memory memTotalBytes memUsedBytes).1 ≠ 0 →
        (refresh_gpu_info_memory memTotalBytes memUsedBytes).2.2 =
          100 * ((refresh_gpu_info_memory memTotalBytes memUsedBytes).2.1 : ℚ) /
            ((refresh_gpu_info_memory memTotalBytes memUsedBytes).1 : ℚ))) ∧
    (∀ totalBytes usedBytes : ℕ,
      (SystemMonitor.get_memory_info totalBytes usedBytes).1 ≠ 0 →
      (SystemMonitor.get_memory_info totalBytes usedBytes).2.2 =
        some (100 * ((SystemMonitor.get_memory_info totalBytes usedBytes).2.1 : ℚ) /
          ((SystemMonitor.get_memory_info totalBytes usedBytes).1 : ℚ))) ∧
    (SystemMonitor.get_memory_info 0 0).2.2 = none := by
  refine ⟨fun tb ub => ⟨fun h => ?_, fun h => ?_⟩, fun tb ub h => ?_, ?_⟩
  · simp only [refresh_gpu_info_memory] at h ⊢
    simp [h]
  · simp only [refresh_gpu_info_memory] at h ⊢
    rw [if_pos (Nat.pos_of_ne_zero h)]
    ring
  · simp only [SystemMonitor.get_memory_info, f32Div] at h ⊢
    rw [if_neg (by exact_mod_cast h)]
    simp only [Option.map_some']
    congr 1
    ring
  · simp [SystemMonitor.get_memory_info, f32Div]

/-- Closed instance of C2: a zero-byte host total yields the non-finite
percentage, the guarded GPU path yields zero, and a 4 MiB total with
1 MiB used yields the exact host percentage. -/
theorem C2_witness :
    (refresh_gpu_info_memory 0 0).2.2 = 0 ∧
    (SystemMonitor.get_memory_info 0 0).2.2 = none ∧
    (SystemMonitor.get_memory_info (4 * 1024 * 1024) (1024 * 1024)).2.2 =
      some (100 * ((SystemMonitor.get_memory_info (4 * 1024 * 1024) (1024 * 1024)).2.1 : ℚ) /
        ((SystemMonitor.get_memory_info (4 * 1024 * 1024) (1024 * 1024)).1 : ℚ)) :=
  ⟨(C2_memory_math.1 0 0).1 (by decide),
   C2_memory_math.2.2,
   C2_memory_math.2.1 (4 * 1024 * 1024) (1024 * 1024) (by decide)⟩

/-! ## Claim C3 -/

/-- C3 counterexample: in a build with a GPU feature enabled whose probe
found no devices, has_gpus is false and yet GpuDetailed is registered,
because Views::new consults only the compile-time feature and never the
probe. -/
theorem C3_counterexample :
    (GpuMonitor.new 20000 []).has_gpus = false ∧
    ViewType.GpuDetailed ∈ (Views.new true).available := by
  constructor
  · rfl
  · decide

/-- C3 amended: GpuDetailed is registered if and only if a GPU cargo
feature is compiled in, and in a build without one (where the probe
necessarily reports zero devices) the registry is exactly Overview,
CpuDetailed, MemoryDetailed, Help. -/
theorem C3_amended_registry_is_compile_time :
    (∀ g : Bool, ViewType.GpuDetailed ∈ (Views.new g).available ↔ g = true) ∧
    (Views.new false).available =
      [ViewType.Overview, ViewType.CpuDetailed, ViewType.MemoryDetailed, ViewType.Help] := by
  constructor
  · intro g
    cases g <;> simp [Views.new]
  · rfl

/-- Closed instance of the amended C3 at both build configurations. -/
theorem C3_witness :
    ViewType.GpuDetailed ∈ (Views.new true).available ∧
    ¬ ViewType.GpuDetailed ∈ (Views.new false).available :=
  ⟨(C3_amended_registry_is_compile_time.1 true).mpr rfl,
   fun h => by cases (C3_amended_registry_is_compile_time.1 false).mp h⟩

/-! ## Claim C4 -/

/-- C4 counterexample: in a build without a GPU feature, pressing the
digit 4 matches no arm of handle_key_event, so it reports no repaint and
leaves the state unchanged, where the claim requires a repaint. -/
theorem C4_counterexample_digit4 :
    handle_key_event false 0 { code := KeyCode.Char '4', ctrl := false }
      (UiState.new false 0) = (false, UiState.new false 0) := by
  rfl

/-- C4 amended: the key mapping as in the claim, except that the digit 4
is handled only in builds with a GPU feature compiled in (where
GpuDetailed is always registered); in a build without one the digit 4
falls to the default arm, leaving the state unchanged and reporting no
repaint. -/
theorem C4_amended_key_mapping (g : Bool) (now : ℕ) (st : UiState) (c : Bool) :
    handle_key_event g now { code := KeyCode.Char 'q', ctrl := c } st
      = (true, { st with running := false }) ∧
    handle_key_event g now { code := KeyCode.Esc, ctrl := c } st
      = (true, { st with running := false }) ∧
    handle_key_event g now { code := KeyCode.Char 'c', ctrl := true } st
      = (true, { st with running := false }) ∧
    handle_key_event g now { code := KeyCode.Tab, ctrl := c } st
      = (true, { st with views := st.views.next }) ∧
    handle_key_event g now { code := KeyCode.BackTab, ctrl := c } st
      = (true, { st with views := st.views.prev }) ∧
    handle_key_event g now { code := KeyCode.Char '1', ctrl := c } st
      = (true, { st with views := st.views.go_to ViewType.Overview }) ∧
    handle_key_event g now { code := KeyCode.Char '2', ctrl := c } st
      = (true, { st with views := st.views.go_to ViewType.CpuDetailed }) ∧
    handle_key_event g now { code := KeyCode.Char '3', ctrl := c } st
      = (true, { st with views := st.views.go_to ViewType.MemoryDetailed }) ∧
    handle_key_event true now { code := KeyCode.Char '4', ctrl := c } st
      = (true, { st with views := st.views.go_to ViewType.GpuDetailed }) ∧
    handle_key_event false now { code := KeyCode.Char '4', ctrl := c } st
      = (false, st) ∧
    handle_key_event g now { code := KeyCode.Char '?', ctrl := c } st
      = (true, { st with views := st.views.go_to ViewType.Help }) ∧
    handle_key_event g now { code := KeyCode.Char 'h', ctrl := c } st
      = (true, { st with views := st.views.go_to ViewType.Help }) ∧
    handle_key_event g now { code := KeyCode.Char 'p', ctrl := c } st
      = (true, st.toggle_automatic_refresh) ∧
    handle_key_event g now { code := KeyCode.Char 'r', ctrl := c } st
      = (true, st.mark_updated now) ∧
    (∀ ev : KeyEvent,
      ev.code ≠ KeyCode.Char 'q' → ev.code ≠ KeyCode.Esc →
      ¬(ev.code = KeyCode.Char 'c' ∧ ev.ctrl = true) →
      ev.code ≠ KeyCode.Tab → ev.code ≠ KeyCode.BackTab →
      ev.code ≠ KeyCode.Char '1' → ev.code ≠ KeyCode.Char '2' →
      ev.code ≠ KeyCode.Char '3' →
      ¬(ev.code = KeyCode.Char '4' ∧ g = true) →
      ev.code ≠ KeyCode.Char '?' → ev.code ≠ KeyCode.Char 'h' →
      ev.code ≠ KeyCode.Char 'p' → ev.code ≠ KeyCode.Char 'r' →
      handle_key_event g now ev st = (false, st)) := by
  refine ⟨rfl, rfl, rfl, rfl, rfl, rfl, rfl, rfl, rfl, rfl, rfl, rfl, rfl, rfl, ?_⟩
  intro ev hq hesc hc htab hbt h1 h2 h3 h4 hqm hh hp hr
  simp [handle_key_event, hq, hesc, hc, htab, hbt, h1, h2, h3, h4, hqm, hh, hp, hr]

/-- Closed instance of the default arm of the amended C4 mapping at the
key x. -/
theorem C4_witness :
    handle_key_event true 5 { code := KeyCode.Char 'x', ctrl := false }
      (UiState.new true 0) = (false, UiState.new true 0) :=
  (C4_amended_key_mapping true 5 (UiState.new true 0)
      false).2.2.2.2.2.2.2.2.2.2.2.2.2.2
    { code := KeyCode.Char 'x', ctrl := false }
    (by decide) (by decide) (by decide) (by decide) (by decide) (by decide)
    (by decide) (by decide) (by decide) (by decide) (by decide) (by decide)
    (by decide)

/-! ## Claim C6 -/

/-- UiState with automatic refresh switched off, used to witness the
pause property. -/
def pausedState : UiState :=
  { views := Views.new false
    running := true
    automatic_refresh := false
    last_update := 0
    show_help_line := true }

/-- C6: should_update holds exactly when automatic refresh is on and the
time elapsed since last_update reaches the refresh rate; mark_updated sets
last_update to the current instant; and with automatic refresh off, any
number of (spec-modelled) loop iterations performs no Host Sampler
refresh and leaves the state unchanged. -/
theorem C6_should_update_pause :
    (∀ (st : UiState) (now refresh_rate : ℕ),
      st.should_update now refresh_rate = true ↔
        st.automatic_refresh = true ∧ refresh_rate ≤ now - st.last_update) ∧
    (∀ (st : UiState) (now : ℕ), (st.mark_updated now).last_update = now) ∧
    (∀ (st : UiState) (refresh_rate : ℕ) (times : List ℕ) (calls : ℕ),
      st.automatic_refresh = false →
      loopSampleRun refresh_rate st times calls = (st, calls)) := by
  refine ⟨fun st now rate => ?_, fun st now => rfl, fun st rate times calls h => ?_⟩
  · simp [UiState.should_update]
  · induction times with
    | nil => rfl
    | cons t ts ih =>
        simp [loopSampleRun, loopSampleStep, UiState.should_update, h, ih]

/-- Closed instance of C6: a paused state is untouched by five loop
iterations spanning several refresh periods, and mark_updated stamps the
clock. -/
theorem C6_witness :
    loopSampleRun 1000 pausedState [0, 500, 1000, 1500, 2000] 0 = (pausedState, 0) ∧
    (pausedState.mark_updated 123).last_update = 123 :=
  ⟨C6_should_update_pause.2.2 pausedState 1000 [0, 500, 1000, 1500, 2000] 0 rfl,
   C6_should_update_pause.2.1 pausedState 123⟩

/-! ## Claim C5 -/

lemma indexOf?_of_mem {l : List ViewType} {a : ViewType} (h : a ∈ l) :
    l.indexOf? a = some (l.indexOf a) := by
  cases h' : l.indexOf? a with
  | some i =>
      have he := List.indexOf_eq_indexOf? a l
      rw [h'] at he
      rw [he]
  | none =>
      rw [List.indexOf?_eq_none_iff] at h'
      exact absurd (by simp) (h' a h)

lemma views_next_get (l : List ViewType) (hnd : l.Nodup) (i : Fin l.length) :
    Views.next ⟨l.get i, l⟩ =
      ⟨l.get ⟨((i : ℕ) + 1) % l.length,
        Nat.mod_lt _ (lt_of_le_of_lt (Nat.zero_le _) i.isLt)⟩, l⟩ := by
  have hmem : l.get i ∈ l := List.get_mem l i i.isLt
  have hidx : List.indexOf (l.get i) l = (i : ℕ) := List.get_indexOf hnd i
  simp only [Views.next, indexOf?_of_mem hmem, hidx]
  congr 1
  exact List.getD_eq_get l _ (Nat.mod_lt _ (lt_of_le_of_lt (Nat.zero_le _) i.isLt))

lemma views_prev_get (l : List ViewType) (hnd : l.Nodup) (i : Fin l.length) :
    Views.prev ⟨l.get i, l⟩ =
      ⟨l.get ⟨((i : ℕ) + (l.length - 1)) % l.length,
        Nat.mod_lt _ (lt_of_le_of_lt (Nat.zero_le _) i.isLt)⟩, l⟩ := by
  have hn : 0 < l.length := lt_of_le_of_lt (Nat.zero_le _) i.isLt
  have hmem : l.get i ∈ l := List.get_mem l i i.isLt
  have hidx : List.indexOf (l.get i) l = (i : ℕ) := List.get_indexOf hnd i
  simp only [Views.prev, indexOf?_of_mem hmem, hidx]
  have hj : (if (i : ℕ) = 0 then l.length - 1 else (i : ℕ) - 1) =
      ((i : ℕ) + (l.length - 1)) % l.length := by
    rcases Nat.eq_zero_or_pos (i : ℕ) with h0 | h0
    · rw [h0, if_pos rfl, Nat.zero_add, Nat.mod_eq_of_lt (by omega)]
    · rw [if_neg (by omega)]
      have harith : (i : ℕ) + (l.length - 1) = ((i : ℕ) - 1) + l.length := by omega
      rw [harith, Nat.add_mod_right, Nat.mod_eq_of_lt (by omega)]
  rw [hj]
  congr 1
  exact List.getD_eq_get l _ (Nat.mod_lt _ hn)

lemma views_next_iterate (l : List ViewType) (hnd : l.Nodup) (i : Fin l.length) (k : ℕ) :
    Views.next^[k] ⟨l.get i, l⟩ =
      ⟨l.get ⟨((i : ℕ) + k) % l.length,
        Nat.mod_lt _ (lt_of_le_of_lt (Nat.zero_le _) i.isLt)⟩, l⟩ := by
  induction k with
  | zero =>
      simp only [Function.iterate_zero, id_eq, Nat.add_zero]
      congr 1
      exact (congrArg l.get (Fin.ext (Nat.mod_eq_of_lt i.isLt))).symm
  | succ k ih =>
      rw [Function.iterate_succ_apply', ih,
        views_next_get l hnd ⟨((i : ℕ) + k) % l.length, Nat.mod_lt _ (lt_of_le_of_lt (Nat.zero_le _) i.isLt)⟩]
      congr 1
      apply congrArg l.get
      apply Fin.ext
      show (((i : ℕ) + k) % l.length + 1) % l.length = ((i : ℕ) + (k + 1)) % l.length
      rw [Nat.mod_add_mod, Nat.add_assoc]

lemma views_prev_iterate (l : List ViewType) (hnd : l.Nodup) (i : Fin l.length) (k : ℕ) :
    Views.prev^[k] ⟨l.get i, l⟩ =
      ⟨l.get ⟨((i : ℕ) + k * (l.length - 1)) % l.length,
        Nat.mod_lt _ (lt_of_le_of_lt (Nat.zero_le _) i.isLt)⟩, l⟩ := by
  induction k with
  | zero =>
      simp only [Function.iterate_zero, id_eq, Nat.zero_mul, Nat.add_zero]
      congr 1
      exact (congrArg l.get (Fin.ext (Nat.mod_eq_of_lt i.isLt))).symm
  | succ k ih =>
      rw [Function.iterate_succ_apply', ih,
        views_prev_get l hnd ⟨((i : ℕ) + k * (l.length - 1)) % l.length,
          Nat.mod_lt _ (lt_of_le_of_lt (Nat.zero_le _) i.isLt)⟩]
      congr 1
      apply congrArg l.get
      apply Fin.ext
      show (((i : ℕ) + k * (l.length - 1)) % l.length + (l.length - 1)) % l.length =
        ((i : ℕ) + (k + 1) * (l.length - 1)) % l.length
      rw [Nat.mod_add_mod, Nat.add_assoc, ← Nat.succ_mul]

/-- C5: on any Views whose registry is duplicate-free (true of every value
the module can construct, since the fields are private and Views::new
builds a duplicate-free registry) and whose current view is registered,
next applied length-many times and prev applied length-many times return
to the original view, next and prev undo each other, and go_to of an
unregistered view is a no-op. -/
theorem C5_view_navigation (vs : Views) (hnd : vs.available.Nodup)
    (hmem : vs.current ∈ vs.available) :
    (Views.next^[vs.available.length] vs).current = vs.current ∧
    (Views.prev^[vs.available.length] vs).current = vs.current ∧
    vs.next.prev.current = vs.current ∧
    vs.prev.next.current = vs.current ∧
    (∀ v : ViewType, v ∉ vs.available → vs.go_to v = vs) := by
  obtain ⟨cur, l⟩ := vs
  simp only at hnd hmem ⊢
  have hlt : List.indexOf cur l < l.length := List.indexOf_lt_length.mpr hmem
  set i : Fin l.length := ⟨List.indexOf cur l, hlt⟩ with hi
  have hn : 0 < l.length := lt_of_le_of_lt (Nat.zero_le _) hlt
  have hget : l.get i = cur := List.indexOf_get hlt
  have hvs : (⟨cur, l⟩ : Views) = ⟨l.get i, l⟩ := by rw [hget]
  refine ⟨?_, ?_, ?_, ?_, fun v hv => ?_⟩
  · rw [hvs, views_next_iterate l hnd i]
    simp only [hget]
    refine Eq.trans ?_ hget
    apply congrArg l.get
    apply Fin.ext
    show ((i : ℕ) + l.length) % l.length = (i : ℕ)
    rw [Nat.add_mod_right, Nat.mod_eq_of_lt i.isLt]
  · rw [hvs, views_prev_iterate l hnd i]
    simp only [hget]
    refine Eq.trans ?_ hget
    apply congrArg l.get
    apply Fin.ext
    show ((i : ℕ) + l.length * (l.length - 1)) % l.length = (i : ℕ)
    rw [Nat.add_mul_mod_self_left, Nat.mod_eq_of_lt i.isLt]
  · rw [hvs, views_next_get l hnd i,
      views_prev_get l hnd ⟨((i : ℕ) + 1) % l.length, Nat.mod_lt _ hn⟩]
    refine Eq.trans ?_ hget
    apply congrArg l.get
    apply Fin.ext
    show (((i : ℕ) + 1) % l.length + (l.length - 1)) % l.length = (i : ℕ)
    rw [Nat.mod_add_mod]
    have harith : (i : ℕ) + 1 + (l.length - 1) = (i : ℕ) + l.length := by omega
    rw [harith, Nat.add_mod_right, Nat.mod_eq_of_lt i.isLt]
  · rw [hvs, views_prev_get l hnd i,
      views_next_get l hnd ⟨((i : ℕ) + (l.length - 1)) % l.length, Nat.mod_lt _ hn⟩]
    refine Eq.trans ?_ hget
    apply congrArg l.get
    apply Fin.ext
    show (((i : ℕ) + (l.length - 1)) % l.length + 1) % l.length = (i : ℕ)
    rw [Nat.mod_add_mod]
    have harith : (i : ℕ) + (l.length - 1) + 1 = (i : ℕ) + l.length := by omega
    rw [harith, Nat.add_mod_right, Nat.mod_eq_of_lt i.isLt]
  · simp only [Views.go_to]
    rw [if_neg hv]

/-- Closed instance of C5 on the no-GPU registry of four views. -/
theorem C5_witness :
    (Views.next^[(Views.new false).available.length] (Views.new false)).current
      = (Views.new false).current ∧
    (Views.prev^[(Views.new false).available.length] (Views.new false)).current
      = (Views.new false).current ∧
    (Views.new false).next.prev.current = (Views.new false).current ∧
    (Views.new false).prev.next.current = (Views.new false).current ∧
    (Views.new false).go_to ViewType.GpuDetailed = Views.new false := by
  have h := C5_view_navigation (Views.new false) (by decide) (by decide)
  exact ⟨h.1, h.2.1, h.2.2.1, h.2.2.2.1, h.2.2.2.2 ViewType.GpuDetailed (by decide)⟩

/-! ## Claim C8 -/

lemma formatLeftAlign_length (s : String) (w : ℕ) :
    (formatLeftAlign s w).length = max w s.length := by
  have hr : (String.mk (List.replicate (w - s.length) ' ')).length = w - s.length := by
    show (List.replicate (w - s.length) ' ').length = w - s.length
    exact List.length_replicate _ _
  simp only [formatLeftAlign, String.length_append, hr]
  omega

lemma formatRightAlign_length (s : String) (w : ℕ) :
    (formatRightAlign s w).length = max w s.length := by
  have hr : (String.mk (List.replicate (w - s.length) ' ')).length = w - s.length := by
    show (List.replicate (w - s.length) ' ').length = w - s.length
    exact List.length_replicate _ _
  simp only [formatRightAlign, String.length_append, hr]
  omega

lemma int_toString_nonneg (i : ℤ) (h : 0 ≤ i) : toString i = Nat.repr i.toNat := by
  cases i with
  | ofNat m => rfl
  | negSucc m => simp at h

lemma nat_repr_length_le_three : ∀ k : ℕ, k < 101 → (Nat.repr k).length ≤ 3 := by decide

lemma nat_repr_length_pos : ∀ k : ℕ, k < 101 → 1 ≤ (Nat.repr k).length := by decide

lemma nat_repr_length_one : ∀ k : ℕ, k < 10 → (Nat.repr k).length = 1 := by decide

lemma f32Round_of_nonneg (q : ℚ) (h : 0 ≤ q) : f32Round q = ⌊q + 1 / 2⌋ :=
  if_pos h

lemma f32Round_nonneg (q : ℚ) (h : 0 ≤ q) : 0 ≤ f32Round q := by
  rw [f32Round_of_nonneg q h]
  exact Int.le_floor.mpr (by push_cast; linarith)

lemma f32Round_le (q : ℚ) (B : ℤ) (h0 : 0 ≤ q) (h : q ≤ (B : ℚ)) : f32Round q ≤ B := by
  rw [f32Round_of_nonneg q h0]
  have hlt : ⌊q + 1 / 2⌋ < B + 1 := Int.floor_lt.mpr (by push_cast; linarith)
  omega

lemma format_digits_length (n : ℤ) (h0 : 0 ≤ n) (h1 : n ≤ 1000) :
    4 ≤ (toString (n / 10) ++ "." ++ toString (n % 10) ++ "%").length ∧
    (toString (n / 10) ++ "." ++ toString (n % 10) ++ "%").length ≤ 6 := by
  have hd0 : 0 ≤ n / 10 := Int.ediv_nonneg h0 (by norm_num)
  have hd1 : n / 10 ≤ 100 := by
    calc n / 10 ≤ 1000 / 10 := Int.ediv_le_ediv (by norm_num) h1
      _ = 100 := by norm_num
  have hm0 : 0 ≤ n % 10 := Int.emod_nonneg n (by norm_num)
  have hm1 : n % 10 < 10 := Int.emod_lt_of_pos n (by norm_num)
  have ha : (n / 10).toNat ≤ 100 := Int.toNat_le.mpr (by exact_mod_cast hd1)
  have hb : (n % 10).toNat ≤ 9 := Int.toNat_le.mpr (by omega)
  rw [int_toString_nonneg _ hd0, int_toString_nonneg _ hm0]
  have l1a := nat_repr_length_pos (n / 10).toNat (by omega)
  have l1b := nat_repr_length_le_three (n / 10).toNat (by omega)
  have l2 := nat_repr_length_one (n % 10).toNat (by omega)
  have hdot : (".").length = 1 := rfl
  have hpct : ("%").length = 1 := rfl
  simp only [String.length_append, hdot, hpct]
  omega

lemma format_value_length (b : BarChart) (h0 : 0 ≤ b.value) (h1 : b.value ≤ 100) :
    4 ≤ b.format_value.length ∧ b.format_value.length ≤ 6 :=
  format_digits_length (f32Round (b.value * 10))
    (f32Round_nonneg _ (by positivity))
    (f32Round_le _ 1000 (by positivity) (by push_cast; linarith))

lemma filledWidth_le_width (b : BarChart) (h0 : 0 ≤ b.value) (h1 : b.value ≤ 100) :
    b.filledWidth ≤ b.width := by
  have hx0 : 0 ≤ b.value / 100 * (b.width : ℚ) := by positivity
  have hx1 : b.value / 100 * (b.width : ℚ) ≤ (b.width : ℚ) := by
    have h2 : b.value / 100 ≤ 1 := (div_le_one (by norm_num : (0:ℚ) < 100)).mpr h1
    calc b.value / 100 * (b.width : ℚ) ≤ 1 * (b.width : ℚ) :=
          mul_le_mul_of_nonneg_right h2 (by positivity)
      _ = (b.width : ℚ) := one_mul _
  have hr : f32Round (b.value / 100 * (b.width : ℚ)) ≤ (b.width : ℤ) :=
    f32Round_le _ _ hx0 (by exact_mod_cast hx1)
  exact Int.toNat_le.mpr (by exact_mod_cast hr)

lemma filledWidth_cast (b : BarChart) (h0 : 0 ≤ b.value) :
    (b.filledWidth : ℤ) = f32Round (b.value * (b.width : ℚ) / 100) := by
  have hx0 : 0 ≤ b.value / 100 * (b.width : ℚ) := by positivity
  have heq : b.value / 100 * (b.width : ℚ) = b.value * (b.width : ℚ) / 100 := by ring
  simp only [BarChart.filledWidth, f32RoundToUsize]
  rw [Int.toNat_of_nonneg (f32Round_nonneg _ hx0), heq]

/-- C8 counterexample: the chart main.rs builds with the title GPU
Utilization (est.), which has 22 characters, renders a first (title)
segment of 22 columns, not the exactly 15 the claim requires: the format
call pads to 15 columns but never truncates. -/
theorem C8_counterexample_title_width :
    ((runCmds none (BarChart.new "GPU Utilization (est.)" 42 40).draw).map
        (fun p => p.2.length)).head? = some 22 := by
  rfl

/-- C8 amended: the drawn line is, strictly in this order, the white title
padded on the right to at least 15 columns (exactly 15 only when the title
is at most 15 characters long, longer titles are not truncated), the
filled segment of full-block glyphs in the value color, the empty segment
of light-shade glyphs in dark grey with filled plus empty cells equal to
the width, a 7-character value field in the value color made of a space
and the right-aligned 6-character percentage, and a newline; the filled
cell count is the value times the width over 100 rounded half away from
zero. -/
theorem C8_amended_bar_layout (t : String) (v : ℚ) (w : ℕ) :
    runCmds none (BarChart.new t v w).draw =
      [(some Color.White, formatLeftAlign (BarChart.new t v w).title 15)]
      ++ (if 0 < (BarChart.new t v w).filledWidth then
            [(some (BarChart.new t v w).get_color,
              String.mk (List.replicate (BarChart.new t v w).filledWidth '█'))]
          else [])
      ++ (if 0 < (BarChart.new t v w).emptyWidth then
            [(some Color.DarkGrey,
              String.mk (List.replicate (BarChart.new t v w).emptyWidth '░'))]
          else [])
      ++ [(some (BarChart.new t v w).get_color,
            " " ++ formatRightAlign (BarChart.new t v w).format_value 6),
          (none, "\n")] ∧
    ((BarChart.new t v w).filledWidth : ℤ)
      = f32Round ((BarChart.new t v w).value * ((BarChart.new t v w).width : ℚ) / 100) ∧
    (BarChart.new t v w).filledWidth + (BarChart.new t v w).emptyWidth
      = (BarChart.new t v w).width ∧
    (formatLeftAlign (BarChart.new t v w).title 15).length
      = max 15 (BarChart.new t v w).title.length ∧
    (" " ++ formatRightAlign (BarChart.new t v w).format_value 6).length = 7 := by
  have h0 : 0 ≤ (BarChart.new t v w).value := (rustClamp_mem v 0 100 (by norm_num)).1
  have h1 : (BarChart.new t v w).value ≤ 100 := (rustClamp_mem v 0 100 (by norm_num)).2
  refine ⟨?_, filledWidth_cast _ h0, ?_, formatLeftAlign_length _ _, ?_⟩
  · by_cases hf : 0 < (BarChart.new t v w).filledWidth <;>
      by_cases he : 0 < (BarChart.new t v w).emptyWidth <;>
      simp [BarChart.draw, hf, he, runCmds]
  · have hle := filledWidth_le_width (BarChart.new t v w) h0 h1
    simp only [BarChart.emptyWidth]
    omega
  · have hfl := format_value_length (BarChart.new t v w) h0 h1
    have hra : (formatRightAlign (BarChart.new t v w).format_value 6).length
        = max 6 (BarChart.new t v w).format_value.length := formatRightAlign_length _ _
    have hsp : (" ").length = 1 := rfl
    rw [String.length_append, hra, hsp]
    omega

end EZ
